import Mathlib

/-!
Verification development for the RPC core of the meteora-lp-sprinter
repository: the retrying RPC execution wrapper (`SolanaClient::with_retry`,
`calculate_backoff`, `is_healthy` in `src/solana/client.rs`), the endpoint
connection pool (`ConnectionPool` in `src/solana/connection.rs`), and the
websocket log-subscription monitor (`MeteoraPoolMonitor` in
`src/monitoring/websocket.rs`).

Machine integers (`u32`, `u64`) are modelled as `Nat` with explicit
saturation where the source saturates; the uniform random jitter factor is
modelled as a rational parameter, and the `f64` multiply-then-truncate in
`calculate_backoff` as exact rational multiplication followed by floor
(computed as `Nat` division by the factor's denominator).  Network outcomes
are modelled as explicit outcome functions supplied to each operation.
-/

/-! ## Error taxonomy

The spec classifies RPC errors: network/timeout/rate-limit are transient,
everything else (bad request, not-found, ...) is terminal.  The source's
`with_retry` is generic in the error type and never inspects the error;
this inductive carries the taxonomy so that claims about classification can
be stated. -/

inductive RpcErr where
  | network
  | timeout
  | rateLimit
  | badRequest
  | notFound
deriving DecidableEq

def RpcErr.isTransient : RpcErr → Bool
  | .network => true
  | .timeout => true
  | .rateLimit => true
  | .badRequest => false
  | .notFound => false

/-- `RetryConfig` from `src/solana/client.rs` (all fields are machine
integers in the source: `max_retries : u32`, delays in ms as `u64`). -/
structure RetryConfig where
  max_retries : Nat
  base_delay_ms : Nat
  max_delay_ms : Nat
deriving DecidableEq

/-- `RetryConfig::default()` in the source: 5 retries, 500ms base, 20000ms cap. -/
def RetryConfig.default_config : RetryConfig :=
  { max_retries := 5, base_delay_ms := 500, max_delay_ms := 20000 }

/-- `SolanaClient::calculate_backoff` from `src/solana/client.rs`:

    let retry_power = 1u64 << retry.min(16);
    let exp_backoff = base.saturating_mul(retry_power);
    let jitter_factor = (fastrand::f64() - 0.5) * 0.5 + 1.0;
    let with_jitter = (exp_backoff as f64 * jitter_factor) as u64;
    with_jitter.min(max)

`j` is the jitter factor (in the source a uniform sample from `[0.75, 1.25)`),
modelled as a rational.  The `f64` product cast to `u64` truncates toward
zero and saturates at `u64::MAX`; for a nonnegative rational factor this is
`exp_backoff * j.num / j.den` in `Nat` arithmetic, clamped at `2^64 - 1`. -/
def calculate_backoff (cfg : RetryConfig) (retry : Nat) (j : ℚ) : Nat :=
  let retry_power : Nat := 2 ^ min retry 16
  let exp_backoff : Nat := min (cfg.base_delay_ms * retry_power) (2 ^ 64 - 1)
  let with_jitter : Nat := min (exp_backoff * j.num.toNat / j.den) (2 ^ 64 - 1)
  min with_jitter cfg.max_delay_ms

/-- Observable behaviour of one `with_retry` run: the value returned (an
aggregate error carries the retry count formatted into the message together
with the last underlying error), the number of times the operation closure
was invoked, and the list of backoff sleeps performed (in ms). -/
structure RetryTrace (α : Type) where
  result : Except (Nat × RpcErr) α
  invocations : Nat
  sleeps : List Nat

/-- Loop body of `SolanaClient::with_retry` (`src/solana/client.rs` lines
173-204).  `op k` is the outcome of the `k`-th invocation of the operation
closure, `js k` the jitter sample used for the backoff after attempt `k`.
`fuel` is an upper bound on the remaining iterations; it is always called
with `fuel = cfg.max_retries + 1 - retries`, which never reaches zero before
the loop returns, so the fuel-exhausted branch is dead code. -/
def with_retry_go (cfg : RetryConfig) (op : Nat → Except RpcErr α) (js : Nat → ℚ) :
    Nat → Nat → RetryTrace α
  | _retries, 0 => { result := .error (0, .network), invocations := 0, sleeps := [] }
  | retries, fuel + 1 =>
    match op retries with
    | .ok v => { result := .ok v, invocations := 1, sleeps := [] }
    | .error e =>
      if cfg.max_retries ≤ retries then
        { result := .error (retries, e), invocations := 1, sleeps := [] }
      else
        let d := calculate_backoff cfg retries (js retries)
        let rest := with_retry_go cfg op js (retries + 1) fuel
        { result := rest.result, invocations := rest.invocations + 1, sleeps := d :: rest.sleeps }

/-- `SolanaClient::with_retry`: starts with `retries = 0` and loops; on any
error it backs off and retries until `retries` reaches `max_retries`, then
surfaces `anyhow!("Operation failed after {retries} retries: {err}")`. -/
def with_retry (cfg : RetryConfig) (op : Nat → Except RpcErr α) (js : Nat → ℚ) : RetryTrace α :=
  with_retry_go cfg op js 0 (cfg.max_retries + 1)

/-- `SolanaClient::is_healthy` (`src/solana/client.rs` lines 224-233):
`get_slot()` goes through `with_retry`; healthy iff the retried call
succeeds.  `slots k` tells whether the `k`-th `get_slot` attempt succeeds. -/
def is_healthy (cfg : RetryConfig) (slots : Nat → Bool) : Bool :=
  match (with_retry cfg (fun k => if slots k then Except.ok () else Except.error RpcErr.network)
      (fun _ => 1)).result with
  | .ok _ => true
  | .error _ => false

/-! ## Connection pool (`src/solana/connection.rs`)

The registry `Arc<Mutex<HashMap<String, (SolanaClient, ConnectionStatus,
Instant)>>>` is modelled as an association list of records with pairwise
distinct urls (the map's iteration order is abstracted as the list order);
the client handle inside each entry is abstracted away, the `Instant` as a
`Nat` timestamp supplied by the caller.  Liveness probes are modelled by
outcome functions: `health url k` is the outcome of the `k`-th `get_slot`
attempt made by `is_healthy` on a client for `url`. -/

inductive ConnectionStatus where
  | healthy
  | inUse
  | reconnecting
  | failed
deriving DecidableEq

/-- One registry entry: url key, status, `last_used` timestamp. -/
structure ConnRecord where
  url : String
  status : ConnectionStatus
  lastUsed : Nat
deriving DecidableEq

/-- `ConnectionPoolConfig` (retry settings kept; commitment dropped). -/
structure PoolConfig where
  min_connections : Nat
  max_connections : Nat
  rpc_urls : List String
  retry_config : RetryConfig

/-- First loop of `ConnectionPool::get_client` (lines 104-111): scan for a
`Healthy` record; mark it `InUse`, stamp `last_used`, return its url. -/
def markFirstHealthy (now : Nat) : List ConnRecord → Option (String × List ConnRecord)
  | [] => none
  | r :: rest =>
    if r.status = ConnectionStatus.healthy then
      some (r.url, { r with status := ConnectionStatus.inUse, lastUsed := now } :: rest)
    else
      (markFirstHealthy now rest).map (fun p => (p.1, r :: p.2))

/-- Second loop of `get_client` (lines 116-138): walk the configured urls,
skip ones already in the registry, build a client for the next unused url
and keep it only if `is_healthy()` (which internally retries) succeeds;
on probe failure fall through to the next unused url. -/
def tryNewUrls (cfg : PoolConfig) (reg : List ConnRecord) (health : String → Nat → Bool)
    (now : Nat) : List String → Option String × List ConnRecord
  | [] => (none, reg)
  | url :: rest =>
    if reg.any (fun r => r.url = url) then
      tryNewUrls cfg reg health now rest
    else if is_healthy cfg.retry_config (health url) then
      (some url, reg ++ [{ url := url, status := ConnectionStatus.inUse, lastUsed := now }])
    else
      tryNewUrls cfg reg health now rest

/-- `ConnectionPool::get_client` (lines 100-143).  Returns the acquired url
(`none` models the `anyhow!("No available Solana RPC connections")`
pool-exhausted error) together with the updated registry. -/
def get_client (cfg : PoolConfig) (reg : List ConnRecord) (health : String → Nat → Bool)
    (now : Nat) : Option String × List ConnRecord :=
  match markFirstHealthy now reg with
  | some (u, reg2) => (some u, reg2)
  | none =>
    if reg.length < cfg.max_connections ∧ reg.length < cfg.rpc_urls.length then
      tryNewUrls cfg reg health now cfg.rpc_urls
    else
      (none, reg)

/-- `ConnectionPool::release_client` (lines 146-153): if the url is present,
set its status back to `Healthy` (timestamp untouched). -/
def release_client (reg : List ConnRecord) (url : String) : List ConnRecord :=
  reg.map (fun r => if r.url = url then { r with status := ConnectionStatus.healthy } else r)

/-- First pass of one health-check tick (lines 169-186): every record not
`InUse` is probed; success restores `Healthy`, failure demotes to
`Reconnecting`.  `p1 url` gives the probe outcomes for `url`. -/
def sweepPass1 (rc : RetryConfig) (p1 : String → Nat → Bool) (reg : List ConnRecord) :
    List ConnRecord :=
  reg.map (fun r =>
    if r.status = ConnectionStatus.inUse then r
    else if is_healthy rc (p1 r.url) then { r with status := ConnectionStatus.healthy }
    else { r with status := ConnectionStatus.reconnecting })

/-- Second pass of one tick (lines 189-205): for every record still
`Reconnecting`, build a fresh client and probe it; success promotes to
`Healthy`, failure leaves the record as is. -/
def sweepPass2 (rc : RetryConfig) (p2 : String → Nat → Bool) (reg : List ConnRecord) :
    List ConnRecord :=
  reg.map (fun r =>
    if r.status = ConnectionStatus.reconnecting then
      if is_healthy rc (p2 r.url) then { r with status := ConnectionStatus.healthy } else r
    else r)

/-- One tick of the loop spawned by `start_health_check_task` (lines
156-208): both passes run back to back under the registry lock. -/
def sweep_tick (rc : RetryConfig) (p1 p2 : String → Nat → Bool) (reg : List ConnRecord) :
    List ConnRecord :=
  sweepPass2 rc p2 (sweepPass1 rc p1 reg)

/-- One iteration of `ConnectionPool::initialize` (lines 74-96): stop once
the registry covers every configured url, otherwise insert url number
`i % rpc_urls.length` as `Healthy` if absent. -/
def initStep (cfg : PoolConfig) (now : Nat) (acc : List ConnRecord) (i : Nat) : List ConnRecord :=
  if cfg.rpc_urls.length ≤ acc.length then acc
  else
    match cfg.rpc_urls.get? (i % cfg.rpc_urls.length) with
    | none => acc
    | some url =>
      if acc.any (fun r => r.url = url) then acc
      else acc ++ [{ url := url, status := ConnectionStatus.healthy, lastUsed := now }]

/-- `ConnectionPool::initialize`: the `for i in 0..min_connections` loop
(the source's `break` is equivalent to the persistent guard in `initStep`,
since the registry only grows). -/
def init_pool (cfg : PoolConfig) (now : Nat) : List ConnRecord :=
  (List.range cfg.min_connections).foldl (initStep cfg now) []

/-! ### Pool operational model

A caller that received a url from `get_client` holds it until it calls
`release_client` with that url; `holders` is the list of urls currently
held.  A `release` op models a holder returning its handle (the claimed
invariants presuppose that releases match prior acquires). -/

structure PoolState where
  reg : List ConnRecord
  holders : List String

inductive PoolOp where
  | acquire (health : String → Nat → Bool) (now : Nat)
  | release (url : String)
  | sweep (p1 p2 : String → Nat → Bool)

def poolStep (cfg : PoolConfig) (s : PoolState) : PoolOp → PoolState
  | .acquire health now =>
    let out := get_client cfg s.reg health now
    { reg := out.2,
      holders := match out.1 with
        | some u => u :: s.holders
        | none => s.holders }
  | .release url =>
    if url ∈ s.holders then
      { reg := release_client s.reg url, holders := s.holders.erase url }
    else s
  | .sweep p1 p2 => { s with reg := sweep_tick cfg.retry_config p1 p2 s.reg }

def initState (cfg : PoolConfig) (now : Nat) : PoolState :=
  { reg := init_pool cfg now, holders := [] }

def runPool (cfg : PoolConfig) (now : Nat) (ops : List PoolOp) : PoolState :=
  ops.foldl (poolStep cfg) (initState cfg now)

/-- The claimed pool invariant: registry keys are distinct, each endpoint is
held by at most one caller, a record is `InUse` exactly when some caller
holds its url, and every held url is a registry key. -/
def PoolInv (s : PoolState) : Prop :=
  (s.reg.map (fun r => r.url)).Nodup ∧
  (∀ u : String, s.holders.count u ≤ 1) ∧
  (∀ i : Nat, ∀ r : ConnRecord, s.reg.get? i = some r →
    (r.status = ConnectionStatus.inUse ↔ r.url ∈ s.holders)) ∧
  (∀ u ∈ s.holders, u ∈ s.reg.map (fun r => r.url))

/-! ## Log extraction (`src/monitoring/websocket.rs`)

`MeteoraPoolMonitor::extract_pool_info` scans a batch of log lines with
three regexes

    Program log: Pool created: ([1-9A-HJ-NP-Za-km-z]{32,})
    Token A: ([1-9A-HJ-NP-Za-km-z]{32,})
    Token B: ([1-9A-HJ-NP-Za-km-z]{32,})

and parses each captured group with `Pubkey::from_str` (base58 decode,
accepted iff at most 44 chars and exactly 32 decoded bytes).  A pubkey is
modelled by its decoded 32-byte big-endian value, a `Nat`. -/

/-- The character class `[1-9A-HJ-NP-Za-km-z]` of the three regexes (the
base58 alphabet). -/
def isBase58Char (c : Char) : Bool :=
  ('1' ≤ c && c ≤ '9') || ('A' ≤ c && c ≤ 'H') || ('J' ≤ c && c ≤ 'N') ||
  ('P' ≤ c && c ≤ 'Z') || ('a' ≤ c && c ≤ 'k') || ('m' ≤ c && c ≤ 'z')

/-- Digit value of a base58 character: its index in the bs58 alphabet. -/
def base58DigitVal (c : Char) : Option Nat :=
  "123456789ABCDEFGHJKLMNPQRSTUVWXYZabcdefghijkmnopqrstuvwxyz".data.indexOf? c

/-- Number of bytes in the minimal big-endian representation of `n`
(`0` takes zero bytes).  Structural recursion on a fuel bound. -/
def byteLenAux : Nat → Nat → Nat
  | 0, _ => 0
  | fuel + 1, n => if n = 0 then 0 else byteLenAux fuel (n / 256) + 1

def byteLen (n : Nat) : Nat := byteLenAux n n

/-- `Pubkey::from_str`: reject strings longer than 44 chars, base58-decode
(reject on any non-alphabet char), reject unless the decoded byte string --
one zero byte per leading `'1'` plus the minimal bytes of the value -- is
exactly 32 bytes long.  Returns the decoded value. -/
def pubkeyFromStr (s : List Char) : Option Nat :=
  if 44 < s.length then none
  else
    match s.mapM base58DigitVal with
    | none => none
    | some ds =>
      let zeros := (ds.takeWhile (fun d => d = 0)).length
      let v := ds.foldl (fun a d => 58 * a + d) 0
      if zeros + byteLen v = 32 then some v else none

/-- `a` is a prefix of `b` (short-circuiting on the first mismatch, like
`str::starts_with`). -/
def listStartsWith : List Char → List Char → Bool
  | [], _ => true
  | _ :: _, [] => false
  | a :: as, b :: bs => a == b && listStartsWith as bs

/-- Leftmost-first match of the regex `<marker>([1-9A-HJ-NP-Za-km-z]{32,})`
against a line, returning capture group 1: at the leftmost position where
the literal `marker` occurs followed by at least 32 base58 characters, the
greedy capture is the maximal base58 run after the literal. -/
def findMarkerCapture (marker : List Char) : List Char → Option (List Char)
  | [] => none
  | c :: rest =>
    if listStartsWith marker (c :: rest) then
      let run := ((c :: rest).drop marker.length).takeWhile isBase58Char
      if 32 ≤ run.length then some run else findMarkerCapture marker rest
    else
      findMarkerCapture marker rest

def poolCreatedMarker : List Char := "Program log: Pool created: ".data
def tokenAMarker : List Char := "Token A: ".data
def tokenBMarker : List Char := "Token B: ".data

/-- Field update on a regex hit (lines 70-88): a capture that parses as a
pubkey overwrites the field; a capture that fails to parse leaves the field
as it was. -/
def updateField (old : Option Nat) (cap : List Char) : Option Nat :=
  match pubkeyFromStr cap with
  | some v => some v
  | none => old

/-- Body of the `for message in log_messages` loop: the three patterns are
tried in order with `else if`, so one line feeds at most one field. -/
def scanStep (acc : Option Nat × Option Nat × Option Nat) (msg : String) :
    Option Nat × Option Nat × Option Nat :=
  match findMarkerCapture poolCreatedMarker msg.data with
  | some cap => (updateField acc.1 cap, acc.2.1, acc.2.2)
  | none =>
    match findMarkerCapture tokenAMarker msg.data with
    | some cap => (acc.1, updateField acc.2.1 cap, acc.2.2)
    | none =>
      match findMarkerCapture tokenBMarker msg.data with
      | some cap => (acc.1, acc.2.1, updateField acc.2.2 cap)
      | none => acc

/-- `TokenInfo` from `src/models/pool.rs`. -/
structure TokenInfo where
  mint : Nat
  name : Option String
  symbol : Option String
  decimals : Option Nat
deriving DecidableEq

/-- `Pool` from `src/models/pool.rs` (`discovered_at : DateTime<Utc>` as a
`Nat` timestamp, `score : Option<f64>` as an optional rational). -/
structure Pool where
  address : Nat
  token_a : TokenInfo
  token_b : TokenInfo
  discovered_at : Nat
  analyzed : Bool
  score : Option ℚ
deriving DecidableEq

/-- `MeteoraPoolMonitor::extract_pool_info` (lines 58-114): fold the scan
over the batch starting from three unset fields; emit one `Pool` iff all
three fields were found.  `now` stands for `Utc::now()`. -/
def extract_pool_info (now : Nat) (log_messages : List String) : Option Pool :=
  match log_messages.foldl scanStep (none, none, none) with
  | (some a, some ta, some tb) =>
    some { address := a,
           token_a := { mint := ta, name := none, symbol := none, decimals := none },
           token_b := { mint := tb, name := none, symbol := none, decimals := none },
           discovered_at := now, analyzed := false, score := none }
  | _ => none

/-! ## Subscription manager state (`MeteoraPoolMonitor` start/stop)

The `Arc<Mutex<Option<WebsocketSubscription>>>` slot is modelled as an
`Option SubHandle`; the oneshot cancel sender and join handle inside are
abstracted to a token.  `stop` (lines 219-242) takes the slot, best-effort
cancels and joins, and returns `Ok(())` unconditionally; `start_monitoring`
(lines 118-217) fails iff the slot is occupied, else stores a new handle. -/

structure SubHandle where
  token : Nat
deriving DecidableEq

structure StopOutcome where
  success : Bool
  observed : Option SubHandle
deriving DecidableEq

/-- `MeteoraPoolMonitor::stop`: `subscription_guard.take()` empties the
slot; whatever was observed, the function returns `Ok(())`. -/
def stop_monitor (s : Option SubHandle) : StopOutcome × Option SubHandle :=
  ({ success := true, observed := s }, none)

/-- Slot effect of `MeteoraPoolMonitor::start_monitoring`: error
`"Websocket monitoring already active"` iff a handle is present, else store
the new handle. -/
def start_monitoring (s : Option SubHandle) (h : SubHandle) : Except String (Option SubHandle) :=
  if s.isSome then Except.error "Websocket monitoring already active"
  else Except.ok (some h)

/-! ## Lock discipline of the health sweep (claim C10)

The control flow of one tick of `start_health_check_task` as a trace of
atomic actions.  In the source, `clients.lock()` is taken at line 166 and
the `MutexGuard` lives to the end of the loop body, so both probe passes
run between the acquire and the release. -/

inductive SweepAction where
  | lockAcquire
  | lockRelease
  | probeCall (url : String)
  | rebuildCall (url : String)
deriving DecidableEq

/-- Trace of one tick: take the registry lock, probe every record not
`InUse` (pass one), rebuild-and-probe every record left `Reconnecting`
(pass two), drop the lock. -/
def tickTrace (rc : RetryConfig) (p1 : String → Nat → Bool) (reg : List ConnRecord) :
    List SweepAction :=
  [SweepAction.lockAcquire] ++
  (reg.filterMap (fun r =>
    if r.status = ConnectionStatus.inUse then none else some (SweepAction.probeCall r.url))) ++
  ((sweepPass1 rc p1 reg).filterMap (fun r =>
    if r.status = ConnectionStatus.reconnecting then some (SweepAction.rebuildCall r.url)
    else none)) ++
  [SweepAction.lockRelease]

/-- The registry lock is held when action `i` of the trace runs: strictly
more acquires than releases precede it. -/
def lockHeldAt (tr : List SweepAction) (i : Nat) : Prop :=
  (tr.take i).count SweepAction.lockRelease < (tr.take i).count SweepAction.lockAcquire

/-! ## Claim-derived comparison definitions and witness constants -/

/-- Claim C2's reading of `get_client` (written from the spec sentence, for
comparison with the source definition): after the healthy scan fails it
requires registry size below the cap and an uninstantiated endpoint, probes
only the first unused endpoint, with a reduced single-attempt (no-retry)
policy, and pool-exhausts in every other case. -/
def get_client_spec (cfg : PoolConfig) (reg : List ConnRecord) (health : String → Nat → Bool)
    (now : Nat) : Option String × List ConnRecord :=
  match markFirstHealthy now reg with
  | some (u, reg2) => (some u, reg2)
  | none =>
    if reg.length < cfg.max_connections ∧ reg.length < cfg.rpc_urls.length then
      match cfg.rpc_urls.find? (fun u => !(reg.any (fun r => r.url = u))) with
      | some url =>
        if is_healthy { cfg.retry_config with max_retries := 0 } (health url) then
          (some url, reg ++ [{ url := url, status := ConnectionStatus.inUse, lastUsed := now }])
        else (none, reg)
      | none => (none, reg)
    else (none, reg)

/-- Amended C2 (written from the amended claim text): scan for the first
healthy record, mark it in use with a fresh timestamp; otherwise, when the
registry is below both the connection cap and the endpoint count, take the
first configured endpoint that is unused and whose freshly built client
passes the retried liveness probe; otherwise pool-exhausted. -/
def get_client_amended (cfg : PoolConfig) (reg : List ConnRecord) (health : String → Nat → Bool)
    (now : Nat) : Option String × List ConnRecord :=
  match reg.find? (fun r => r.status == ConnectionStatus.healthy) with
  | some r =>
    (some r.url,
      reg.set (reg.findIdx (fun q => q.status == ConnectionStatus.healthy))
        { r with status := ConnectionStatus.inUse, lastUsed := now })
  | none =>
    if reg.length < cfg.max_connections ∧ reg.length < cfg.rpc_urls.length then
      match cfg.rpc_urls.find?
          (fun u => !(reg.any (fun r => r.url = u)) && is_healthy cfg.retry_config (health u)) with
      | some u => (some u, reg ++ [{ url := u, status := ConnectionStatus.inUse, lastUsed := now }])
      | none => (none, reg)
    else (none, reg)

/-- Net status transition of one sweep tick for a single record: `InUse` is
skipped by both passes; otherwise the first-pass probe outcome `a` decides
`Healthy` vs `Reconnecting`, and a record left `Reconnecting` is promoted
back to `Healthy` when the rebuild probe outcome `b` succeeds. -/
def statusStep (st : ConnectionStatus) (a b : Bool) : ConnectionStatus :=
  if st = ConnectionStatus.inUse then st
  else if a then ConnectionStatus.healthy
  else if b then ConnectionStatus.healthy
  else ConnectionStatus.reconnecting

/-- Iterated health sweep: one `sweep_tick` per element of `ticks`, each
with its own probe outcomes. -/
def sweepRun (rc : RetryConfig)
    (ticks : List ((String → Nat → Bool) × (String → Nat → Bool)))
    (reg : List ConnRecord) : List ConnRecord :=
  ticks.foldl (fun acc t => sweep_tick rc t.1 t.2 acc) reg

/-- Concrete base58 strings for witnesses: a real 44-char program id, the
wrapped-SOL mint, the 32-one system program (decodes to 32 zero bytes), and
a 33-one string (33 decoded bytes, rejected by `Pubkey::from_str`). -/
def sMet : String := "cpamdpZCGKUy5JxQXB4dcpGPiikHawvSWAd6mEn1sGG"
def sSol : String := "So11111111111111111111111111111111111111112"
def sOnes : String := "11111111111111111111111111111111"
def sOnes33 : String := "111111111111111111111111111111111"

/-- Decoded value of `sMet`. -/
def vMet : Nat := 4150552952357806311296800041893419763326785395543983333600872279026800614125

/-- Decoded value of `sSol`. -/
def vSol : Nat := 2988679396378646993494765771507681406623014513651778753134412041978399162369

/-! # Theorems -/

/-! ## Helper lemmas about the retry loop -/

theorem with_retry_go_invocations_pos (cfg : RetryConfig) (op : Nat → Except RpcErr α)
    (js : Nat → ℚ) (retries fuel : Nat) (h : 1 ≤ fuel) :
    1 ≤ (with_retry_go cfg op js retries fuel).invocations := by
  match fuel, h with
  | fuel + 1, _ =>
    rw [with_retry_go]
    cases op retries with
    | ok v => simp
    | error e =>
      by_cases hm : cfg.max_retries ≤ retries
      · simp [hm]
      · simp [hm]

theorem with_retry_go_allfail (cfg : RetryConfig) (op : Nat → Except RpcErr α)
    (js : Nat → ℚ) (es : Nat → RpcErr) (hall : ∀ k, op k = Except.error (es k)) :
    ∀ fuel retries, 1 ≤ fuel → retries + fuel = cfg.max_retries + 1 →
      (with_retry_go cfg op js retries fuel).result
          = Except.error (cfg.max_retries, es cfg.max_retries) ∧
        (with_retry_go cfg op js retries fuel).invocations = fuel := by
  intro fuel
  induction fuel with
  | zero => intro retries h; omega
  | succ f ih =>
    intro retries _ hsum
    rw [with_retry_go, hall retries]
    by_cases hm : cfg.max_retries ≤ retries
    · have hr : retries = cfg.max_retries := by omega
      have hf : f = 0 := by omega
      subst hr hf
      simp [hm]
    · have hf : 1 ≤ f := by omega
      have hsum2 : (retries + 1) + f = cfg.max_retries + 1 := by omega
      have := ih (retries + 1) hf hsum2
      simp only [hm, if_false]
      exact ⟨this.1, by simp [this.2]⟩

/-! ## Claim C1: transient/terminal classification in `with_retry` -/

/-- Claim C1 counterexample.  The claim says a permanent, non-retryable
error (here `badRequest`, terminal under the spec's classification) is
surfaced immediately: one invocation, no backoff sleep.  With
`max_retries = 1` and an operation that always fails with `badRequest`,
the source's `with_retry` invokes the operation twice and sleeps once
before surfacing the aggregate error: it never classifies errors. -/
theorem c1_counterexample :
    (with_retry { max_retries := 1, base_delay_ms := 500, max_delay_ms := 20000 }
        (fun _ => (Except.error RpcErr.badRequest : Except RpcErr Unit)) (fun _ => 1)).invocations
        = 2 ∧
      (with_retry { max_retries := 1, base_delay_ms := 500, max_delay_ms := 20000 }
        (fun _ => (Except.error RpcErr.badRequest : Except RpcErr Unit)) (fun _ => 1)).sleeps
        ≠ [] ∧
      RpcErr.badRequest.isTransient = false := by
  refine ⟨rfl, ?_, rfl⟩
  intro hnil
  have hlen : (with_retry { max_retries := 1, base_delay_ms := 500, max_delay_ms := 20000 }
      (fun _ => (Except.error RpcErr.badRequest : Except RpcErr Unit)) (fun _ => 1)).sleeps.length
      = 1 := rfl
  rw [hnil] at hlen
  simp at hlen

/-- Amended claim C1: `with_retry` performs no transient/terminal
classification at all.  Any first-attempt error -- in particular one the
spec classifies as permanent -- triggers a backoff sleep and a further
invocation whenever `max_retries > 0`; errors are surfaced only as the
aggregate error after retries are exhausted. -/
theorem c1_amended (cfg : RetryConfig) (op : Nat → Except RpcErr α) (js : Nat → ℚ)
    (e : RpcErr) (h0 : op 0 = Except.error e) (hperm : e.isTransient = false)
    (hmax : 0 < cfg.max_retries) :
    2 ≤ (with_retry cfg op js).invocations ∧ (with_retry cfg op js).sleeps ≠ [] := by
  have hm : ¬ cfg.max_retries ≤ 0 := by omega
  have hstep : with_retry cfg op js =
      { result := (with_retry_go cfg op js 1 cfg.max_retries).result,
        invocations := (with_retry_go cfg op js 1 cfg.max_retries).invocations + 1,
        sleeps := calculate_backoff cfg 0 (js 0) ::
          (with_retry_go cfg op js 1 cfg.max_retries).sleeps } := by
    rw [with_retry, with_retry_go, h0]
    simp [hm]
  rw [hstep]
  constructor
  · have := with_retry_go_invocations_pos cfg op js 1 cfg.max_retries (by omega)
    simpa using this
  · simp

theorem c1_amended_witness :
    (fun _ : Nat => (Except.error RpcErr.badRequest : Except RpcErr Unit)) 0
        = Except.error RpcErr.badRequest ∧
      RpcErr.badRequest.isTransient = false ∧
      0 < (RetryConfig.default_config).max_retries ∧
      2 ≤ (with_retry RetryConfig.default_config
        (fun _ => (Except.error RpcErr.badRequest : Except RpcErr Unit)) (fun _ => 1)).invocations ∧
      (with_retry RetryConfig.default_config
        (fun _ => (Except.error RpcErr.badRequest : Except RpcErr Unit)) (fun _ => 1)).sleeps
        ≠ [] := by
  refine ⟨rfl, rfl, by decide, ?_⟩
  exact c1_amended RetryConfig.default_config _ _ RpcErr.badRequest rfl rfl (by decide)

/-! ## Claim C4: aggregate error after exhausting retries -/

/-- Claim C4 counterexample.  With `max_retries = 1` and an always-failing
operation, the operation is indeed invoked `max_retries + 1 = 2` times, but
the aggregate error `anyhow!("Operation failed after {retries} retries")`
formats the final `retries` counter, which is `max_retries = 1`; it does
not report `max_retries + 1 = 2` attempts as the claim states. -/
theorem c4_counterexample :
    (with_retry { max_retries := 1, base_delay_ms := 500, max_delay_ms := 20000 }
        (fun _ => (Except.error RpcErr.network : Except RpcErr Unit)) (fun _ => 1)).invocations
        = 2 ∧
      (with_retry { max_retries := 1, base_delay_ms := 500, max_delay_ms := 20000 }
        (fun _ => (Except.error RpcErr.network : Except RpcErr Unit)) (fun _ => 1)).result
        = Except.error (1, RpcErr.network) ∧
      ¬ ∃ e : RpcErr,
        (with_retry { max_retries := 1, base_delay_ms := 500, max_delay_ms := 20000 }
          (fun _ => (Except.error RpcErr.network : Except RpcErr Unit)) (fun _ => 1)).result
          = Except.error (1 + 1, e) := by
  refine ⟨rfl, rfl, ?_⟩
  rintro ⟨e, h⟩
  rw [show (with_retry { max_retries := 1, base_delay_ms := 500, max_delay_ms := 20000 }
      (fun _ => (Except.error RpcErr.network : Except RpcErr Unit)) (fun _ => 1)).result
      = Except.error (1, RpcErr.network) from rfl] at h
  simp at h

/-- Amended claim C4: an operation failing on every attempt is invoked
exactly `max_retries + 1` times, and the aggregate error carries the final
retry counter `max_retries` (one less than the number of attempts) together
with the last underlying error. -/
theorem c4_amended (cfg : RetryConfig) (op : Nat → Except RpcErr α) (js : Nat → ℚ)
    (es : Nat → RpcErr) (hall : ∀ k, op k = Except.error (es k)) :
    (with_retry cfg op js).result = Except.error (cfg.max_retries, es cfg.max_retries) ∧
      (with_retry cfg op js).invocations = cfg.max_retries + 1 := by
  exact with_retry_go_allfail cfg op js es hall (cfg.max_retries + 1) 0 (by omega) (by omega)

theorem c4_amended_witness :
    (∀ k : Nat, (fun _ : Nat => (Except.error RpcErr.timeout : Except RpcErr Unit)) k
        = Except.error ((fun _ => RpcErr.timeout) k)) ∧
      (with_retry RetryConfig.default_config
        (fun _ => (Except.error RpcErr.timeout : Except RpcErr Unit)) (fun _ => 1)).result
        = Except.error (5, RpcErr.timeout) ∧
      (with_retry RetryConfig.default_config
        (fun _ => (Except.error RpcErr.timeout : Except RpcErr Unit)) (fun _ => 1)).invocations
        = 6 := by
  refine ⟨fun _ => rfl, ?_⟩
  exact c4_amended RetryConfig.default_config _ _ (fun _ => RpcErr.timeout) (fun _ => rfl)

/-! ## Claim C9: backoff jitter bounds -/

theorem nat_div_cast_le (a b : Nat) : ((a / b : Nat) : ℚ) ≤ (a : ℚ) / (b : ℚ) :=
  Nat.cast_div_le

theorem nat_div_cast_lower (a b : Nat) (hb : 0 < b) :
    (a : ℚ) / (b : ℚ) - 1 ≤ ((a / b : Nat) : ℚ) := by
  rw [sub_le_iff_le_add, div_le_iff₀ (by positivity)]
  have h3 : a < (a / b + 1) * b := by
    calc a = b * (a / b) + a % b := (Nat.div_add_mod a b).symm
    _ < b * (a / b) + b := by have := Nat.mod_lt a hb; omega
    _ = (a / b + 1) * b := by ring
  have h4 : (a : ℚ) ≤ ((a / b + 1) * b : Nat) := by exact_mod_cast Nat.le_of_lt h3
  push_cast at h4 ⊢
  linarith

theorem rat_num_den_of_nonneg (j : ℚ) (h : 0 ≤ j) : (j.num.toNat : ℚ) / (j.den : ℚ) = j := by
  have hnum : (j.num.toNat : ℤ) = j.num := Int.toNat_of_nonneg (Rat.num_nonneg.mpr h)
  calc (j.num.toNat : ℚ) / (j.den : ℚ)
      = ((j.num.toNat : ℤ) : ℚ) / (j.den : ℚ) := by push_cast; ring
  _ = (j.num : ℚ) / (j.den : ℚ) := by rw [hnum]
  _ = j := Rat.num_div_den j

/-- Claim C9 counterexample.  The claim puts the computed backoff for any
attempt within `[0.75, 1.25]` of `min(maxDelay, baseDelay * 2^attempt)`.
With `baseDelay = 1`, `maxDelay = 2^40` and attempt `30`, the source clamps
the exponent at 16 (`retry.min(16)`), so even with jitter factor `1` the
computed backoff is `2^16 = 65536`, far below `0.75 * 2^30`. -/
theorem c9_counterexample :
    ¬ ((3 / 4 : ℚ) *
        ((min (RetryConfig.mk 0 1 (2 ^ 40)).max_delay_ms
          ((RetryConfig.mk 0 1 (2 ^ 40)).base_delay_ms * 2 ^ 30) : Nat) : ℚ)
        ≤ (calculate_backoff (RetryConfig.mk 0 1 (2 ^ 40)) 30 1 : ℚ)) := by
  have h1 : calculate_backoff (RetryConfig.mk 0 1 (2 ^ 40)) 30 1 = 65536 := by decide
  have h2 : (min (RetryConfig.mk 0 1 (2 ^ 40)).max_delay_ms
      ((RetryConfig.mk 0 1 (2 ^ 40)).base_delay_ms * 2 ^ 30) : Nat) = 2 ^ 30 := by decide
  rw [h1, h2]
  norm_num

/-- Amended claim C9: with the exponent clamped at 16 and the product
saturated at `u64::MAX` as the source computes it -- writing
`E = min(baseDelay * 2^min(attempt,16), 2^64 - 1)` and `B = min(E, maxDelay)`
-- the computed backoff never exceeds `maxDelay`, is at most `1.25 * B`,
and is at least `0.75 * B - 1` (the slack of one millisecond coming from
the truncating cast to `u64`). -/
theorem c9_amended (cfg : RetryConfig) (retry : Nat) (j : ℚ)
    (hj0 : 3 / 4 ≤ j) (hj1 : j ≤ 5 / 4) :
    calculate_backoff cfg retry j ≤ cfg.max_delay_ms ∧
      (calculate_backoff cfg retry j : ℚ) ≤ 5 / 4 *
        ((min (min (cfg.base_delay_ms * 2 ^ min retry 16) (2 ^ 64 - 1))
          cfg.max_delay_ms : Nat) : ℚ) ∧
      3 / 4 * ((min (min (cfg.base_delay_ms * 2 ^ min retry 16) (2 ^ 64 - 1))
          cfg.max_delay_ms : Nat) : ℚ) - 1
        ≤ (calculate_backoff cfg retry j : ℚ) := by
  have hj00 : (0 : ℚ) ≤ j := by linarith
  set E : Nat := min (cfg.base_delay_ms * 2 ^ min retry 16) (2 ^ 64 - 1) with hE
  set W : Nat := E * j.num.toNat / j.den with hW
  set B : Nat := min E cfg.max_delay_ms with hB
  have hcb : calculate_backoff cfg retry j = min (min W (2 ^ 64 - 1)) cfg.max_delay_ms := rfl
  have hden : 0 < j.den := j.pos
  have hWup : (W : ℚ) ≤ (E : ℚ) * j := by
    calc (W : ℚ) ≤ ((E * j.num.toNat : Nat) : ℚ) / (j.den : ℚ) := nat_div_cast_le _ _
    _ = (E : ℚ) * ((j.num.toNat : ℚ) / (j.den : ℚ)) := by push_cast; ring
    _ = (E : ℚ) * j := by rw [rat_num_den_of_nonneg j hj00]
  have hWlo : (E : ℚ) * j - 1 ≤ (W : ℚ) := by
    have := nat_div_cast_lower (E * j.num.toNat) j.den hden
    calc (E : ℚ) * j - 1 = (E : ℚ) * ((j.num.toNat : ℚ) / (j.den : ℚ)) - 1 := by
          rw [rat_num_den_of_nonneg j hj00]
    _ = ((E * j.num.toNat : Nat) : ℚ) / (j.den : ℚ) - 1 := by push_cast; ring
    _ ≤ (W : ℚ) := this
  have hE0 : (0 : ℚ) ≤ (E : ℚ) := by positivity
  have hB0 : (0 : ℚ) ≤ (B : ℚ) := by positivity
  have hBE : (B : ℚ) ≤ (E : ℚ) := by exact_mod_cast Nat.min_le_left E cfg.max_delay_ms
  have hBmax : B ≤ cfg.max_delay_ms := Nat.min_le_right _ _
  refine ⟨by rw [hcb]; exact Nat.min_le_right _ _, ?_, ?_⟩
  · -- upper bound
    rcases le_or_lt E cfg.max_delay_ms with hcase | hcase
    · have hBeq : B = E := by rw [hB]; omega
      have h1 : calculate_backoff cfg retry j ≤ W := by rw [hcb]; omega
      have h2 : (calculate_backoff cfg retry j : ℚ) ≤ (W : ℚ) := by exact_mod_cast h1
      have h3 : (E : ℚ) * j ≤ (E : ℚ) * (5 / 4) := by
        exact mul_le_mul_of_nonneg_left hj1 hE0
      rw [hBeq]
      linarith
    · have hBeq : B = cfg.max_delay_ms := by rw [hB]; omega
      have h1 : calculate_backoff cfg retry j ≤ cfg.max_delay_ms := by rw [hcb]; omega
      have h2 : (calculate_backoff cfg retry j : ℚ) ≤ (cfg.max_delay_ms : ℚ) := by
        exact_mod_cast h1
      rw [hBeq]
      linarith
  · -- lower bound
    rcases le_or_lt (min W (2 ^ 64 - 1)) cfg.max_delay_ms with hcase | hcase
    · have hceq : calculate_backoff cfg retry j = min W (2 ^ 64 - 1) := by rw [hcb]; omega
      rcases le_or_lt W (2 ^ 64 - 1) with hw | hw
      · have hceq2 : calculate_backoff cfg retry j = W := by omega
        have h3 : (E : ℚ) * (3 / 4) ≤ (E : ℚ) * j := mul_le_mul_of_nonneg_left hj0 hE0
        rw [hceq2]
        linarith
      · have hceq2 : calculate_backoff cfg retry j = 2 ^ 64 - 1 := by omega
        have hE64 : E ≤ 2 ^ 64 - 1 := Nat.min_le_right _ _
        have h4 : (E : ℚ) ≤ (((2 : Nat) ^ 64 - 1 : Nat) : ℚ) := Nat.cast_le.mpr hE64
        rw [hceq2]
        push_cast
        push_cast at h4 hBE hB0
        linarith
    · have hceq : calculate_backoff cfg retry j = cfg.max_delay_ms := by rw [hcb]; omega
      have h5 : (B : ℚ) ≤ (cfg.max_delay_ms : ℚ) := by exact_mod_cast hBmax
      rw [hceq]
      linarith

theorem c9_amended_witness :
    (3 / 4 : ℚ) ≤ (1 : ℚ) ∧ (1 : ℚ) ≤ 5 / 4 ∧
      (calculate_backoff RetryConfig.default_config 2 1 ≤
          RetryConfig.default_config.max_delay_ms ∧
        (calculate_backoff RetryConfig.default_config 2 1 : ℚ) ≤ 5 / 4 *
          ((min (min (RetryConfig.default_config.base_delay_ms * 2 ^ min 2 16) (2 ^ 64 - 1))
            RetryConfig.default_config.max_delay_ms : Nat) : ℚ) ∧
        3 / 4 * ((min (min (RetryConfig.default_config.base_delay_ms * 2 ^ min 2 16)
            (2 ^ 64 - 1)) RetryConfig.default_config.max_delay_ms : Nat) : ℚ) - 1
          ≤ (calculate_backoff RetryConfig.default_config 2 1 : ℚ)) :=
  ⟨by norm_num, by norm_num,
    c9_amended RetryConfig.default_config 2 1 (by norm_num) (by norm_num)⟩

/-! ## Helper lemmas about the log extractor -/

theorem takeWhile_all (p : Char → Bool) (l : List Char) (h : ∀ x ∈ l, p x = true) :
    l.takeWhile p = l := by
  induction l with
  | nil => rfl
  | cons x xs ih =>
    rw [List.takeWhile_cons, h x (List.mem_cons_self x xs)]
    rw [ih (fun y hy => h y (List.mem_cons_of_mem x hy))]
    simp

theorem listStartsWith_append_self (m t : List Char) : listStartsWith m (m ++ t) = true := by
  induction m with
  | nil => rfl
  | cons c m2 ih => simp [listStartsWith, ih]

theorem listStartsWith_mem {m s : List Char} (h : listStartsWith m s = true) :
    ∀ c ∈ m, c ∈ s := by
  induction m generalizing s with
  | nil => intro c hc; cases hc
  | cons a as ih =>
    intro c hc
    cases s with
    | nil => cases h
    | cons b bs =>
      rw [listStartsWith, Bool.and_eq_true, beq_iff_eq] at h
      rcases List.mem_cons.mp hc with hca | hcas
      · exact List.mem_cons.mpr (Or.inl (hca.trans h.1))
      · exact List.mem_cons.mpr (Or.inr (ih h.2 c hcas))

/-- If the marker contains a character outside the base58 class while the
scanned text is all base58, the regex cannot match anywhere. -/
theorem fmc_none_of_nonbase58 (m : List Char) (c : Char) (hc : c ∈ m)
    (hcb : isBase58Char c = false) :
    ∀ s : List Char, (∀ x ∈ s, isBase58Char x = true) → findMarkerCapture m s = none := by
  intro s
  induction s with
  | nil => intro _; rfl
  | cons x rest ih =>
    intro hall
    rw [findMarkerCapture]
    have hsw : listStartsWith m (x :: rest) = false := by
      by_contra hne
      have htrue : listStartsWith m (x :: rest) = true := by
        cases hb : listStartsWith m (x :: rest) with
        | true => rfl
        | false => exact absurd hb hne
      have := hall c (listStartsWith_mem htrue c hc)
      rw [this] at hcb
      cases hcb
    rw [hsw]
    simp only [Bool.false_eq_true, if_false]
    exact ih (fun y hy => hall y (List.mem_cons_of_mem x hy))

/-- The regex `marker(base58{32,})` on a line of the exact shape
`marker ++ a` with `a` a base58 run of length at least 32 captures `a`. -/
theorem fmc_marker_hit (m a : List Char) (ha : ∀ x ∈ a, isBase58Char x = true)
    (hlen : 32 ≤ a.length) : findMarkerCapture m (m ++ a) = some a := by
  cases m with
  | nil =>
    cases a with
    | nil => simp at hlen
    | cons y ys =>
      rw [List.nil_append, findMarkerCapture]
      have hsw : listStartsWith [] (y :: ys) = true := rfl
      rw [hsw]
      simp only [if_true, List.length_nil, List.drop_zero]
      rw [takeWhile_all _ _ ha]
      simp only [hlen, if_true]
  | cons c m2 =>
    rw [List.cons_append, findMarkerCapture]
    have hsw : listStartsWith (c :: m2) (c :: (m2 ++ a)) = true := by
      rw [listStartsWith]
      simp [listStartsWith_append_self]
    rw [hsw]
    simp only [if_true]
    have hdrop : (c :: (m2 ++ a)).drop (c :: m2).length = a := by
      rw [List.length_cons, List.drop_succ_cons, List.drop_left]
    rw [hdrop, takeWhile_all _ _ ha]
    simp only [hlen, if_true]

/-- A pool-creation line: the pool-created regex hits and the token regexes
are never consulted (`else if`). -/
theorem scanStep_poolLine (acc : Option Nat × Option Nat × Option Nat) (a : String)
    (ha : ∀ x ∈ a.data, isBase58Char x = true) (hl : 32 ≤ a.data.length) :
    scanStep acc ("Program log: Pool created: " ++ a)
      = (updateField acc.1 a.data, acc.2.1, acc.2.2) := by
  have hdata : ("Program log: Pool created: " ++ a).data = poolCreatedMarker ++ a.data := rfl
  rw [scanStep, hdata, fmc_marker_hit _ _ ha hl]

/-- A `Token A:` line: the pool-created regex cannot match (its marker has
a space, which is not base58, and after skipping the literal `"Token A: "`
head only base58 text remains), and the token-A regex hits. -/
theorem scanStep_tokenALine (acc : Option Nat × Option Nat × Option Nat) (a : String)
    (ha : ∀ x ∈ a.data, isBase58Char x = true) (hl : 32 ≤ a.data.length) :
    scanStep acc ("Token A: " ++ a) = (acc.1, updateField acc.2.1 a.data, acc.2.2) := by
  have h1 : findMarkerCapture poolCreatedMarker ("Token A: " ++ a).data
      = findMarkerCapture poolCreatedMarker a.data := rfl
  have h2 : findMarkerCapture poolCreatedMarker a.data = none :=
    fmc_none_of_nonbase58 _ ' ' (by decide) (by decide) _ ha
  have h3 : ("Token A: " ++ a).data = tokenAMarker ++ a.data := rfl
  rw [scanStep, h1, h2, h3, fmc_marker_hit _ _ ha hl]

/-- A `Token B:` line: neither the pool-created nor the token-A regex can
match, and the token-B regex hits. -/
theorem scanStep_tokenBLine (acc : Option Nat × Option Nat × Option Nat) (a : String)
    (ha : ∀ x ∈ a.data, isBase58Char x = true) (hl : 32 ≤ a.data.length) :
    scanStep acc ("Token B: " ++ a) = (acc.1, acc.2.1, updateField acc.2.2 a.data) := by
  have h1 : findMarkerCapture poolCreatedMarker ("Token B: " ++ a).data
      = findMarkerCapture poolCreatedMarker a.data := rfl
  have h2 : findMarkerCapture poolCreatedMarker a.data = none :=
    fmc_none_of_nonbase58 _ ' ' (by decide) (by decide) _ ha
  have h3 : findMarkerCapture tokenAMarker ("Token B: " ++ a).data
      = findMarkerCapture tokenAMarker a.data := rfl
  have h4 : findMarkerCapture tokenAMarker a.data = none :=
    fmc_none_of_nonbase58 _ ' ' (by decide) (by decide) _ ha
  have h5 : ("Token B: " ++ a).data = tokenBMarker ++ a.data := rfl
  rw [scanStep, h1, h2, h3, h4, h5, fmc_marker_hit _ _ ha hl]

/-! ## Claim C3: extraction of a pool-creation batch -/

/-- Claim C3 counterexample.  The claim's batch uses the bare line
`"Pool created: <addr1>"`, but the source regex requires the full Solana
log prefix `"Program log: Pool created: "`; on the claim's batch (with
three perfectly valid addresses) extraction yields nothing, not one event. -/
theorem c3_counterexample :
    extract_pool_info 0
      ["Pool created: " ++ sMet, "Token A: " ++ sSol, "Token B: " ++ sOnes] = none := by
  decide

/-- Amended claim C3: for a batch whose lines are
`"Program log: Pool created: <a1>"`, `"Token A: <a2>"`, `"Token B: <a3>"`
with valid addresses (base58 text of the length the regex requires, parsed
by `Pubkey::from_str`), extraction yields exactly one `Pool` carrying the
three decoded addresses; replacing `<a2>` by a base58 string that
`Pubkey::from_str` rejects yields nothing. -/
theorem c3_amended (now : Nat) (a1 a2 b2 a3 : String) (v1 v2 v3 : Nat)
    (h1b : ∀ x ∈ a1.data, isBase58Char x = true) (h1l : 32 ≤ a1.data.length)
    (h1v : pubkeyFromStr a1.data = some v1)
    (h2b : ∀ x ∈ a2.data, isBase58Char x = true) (h2l : 32 ≤ a2.data.length)
    (h2v : pubkeyFromStr a2.data = some v2)
    (h3b : ∀ x ∈ a3.data, isBase58Char x = true) (h3l : 32 ≤ a3.data.length)
    (h3v : pubkeyFromStr a3.data = some v3)
    (hb2b : ∀ x ∈ b2.data, isBase58Char x = true) (hb2l : 32 ≤ b2.data.length)
    (hb2v : pubkeyFromStr b2.data = none) :
    extract_pool_info now
        ["Program log: Pool created: " ++ a1, "Token A: " ++ a2, "Token B: " ++ a3]
      = some { address := v1,
               token_a := { mint := v2, name := none, symbol := none, decimals := none },
               token_b := { mint := v3, name := none, symbol := none, decimals := none },
               discovered_at := now, analyzed := false, score := none } ∧
      extract_pool_info now
        ["Program log: Pool created: " ++ a1, "Token A: " ++ b2, "Token B: " ++ a3]
      = none := by
  have s1 : scanStep (none, none, none) ("Program log: Pool created: " ++ a1)
      = (some v1, none, none) := by
    rw [scanStep_poolLine _ _ h1b h1l]
    simp [updateField, h1v]
  have s2 : scanStep (some v1, none, none) ("Token A: " ++ a2)
      = (some v1, some v2, none) := by
    rw [scanStep_tokenALine _ _ h2b h2l]
    simp [updateField, h2v]
  have s2b : scanStep (some v1, none, none) ("Token A: " ++ b2)
      = (some v1, none, none) := by
    rw [scanStep_tokenALine _ _ hb2b hb2l]
    simp [updateField, hb2v]
  have s3 : scanStep (some v1, some v2, none) ("Token B: " ++ a3)
      = (some v1, some v2, some v3) := by
    rw [scanStep_tokenBLine _ _ h3b h3l]
    simp [updateField, h3v]
  have s3b : scanStep (some v1, none, none) ("Token B: " ++ a3)
      = (some v1, none, some v3) := by
    rw [scanStep_tokenBLine _ _ h3b h3l]
    simp [updateField, h3v]
  constructor
  · rw [extract_pool_info]
    rw [List.foldl_cons, List.foldl_cons, List.foldl_cons, List.foldl_nil, s1, s2, s3]
  · rw [extract_pool_info]
    rw [List.foldl_cons, List.foldl_cons, List.foldl_cons, List.foldl_nil, s1, s2b, s3b]

theorem c3_amended_witness :
    extract_pool_info 7
        ["Program log: Pool created: " ++ sMet, "Token A: " ++ sSol, "Token B: " ++ sOnes]
      = some { address := vMet,
               token_a := { mint := vSol, name := none, symbol := none, decimals := none },
               token_b := { mint := 0, name := none, symbol := none, decimals := none },
               discovered_at := 7, analyzed := false, score := none } ∧
      extract_pool_info 7
        ["Program log: Pool created: " ++ sMet, "Token A: " ++ sOnes33, "Token B: " ++ sOnes]
      = none :=
  c3_amended 7 sMet sSol sOnes33 sOnes vMet vSol 0
    (by decide) (by decide) (by decide)
    (by decide) (by decide) (by decide)
    (by decide) (by decide) (by decide)
    (by decide) (by decide) (by decide)

/-! ## Claim C8: which match wins within a batch -/

/-- Claim C8 counterexample.  A batch with two pool-creation lines (both
with valid, distinct addresses) plus token lines: the claim says the first
matching line's address (`sMet`) is taken, but the source overwrites the
field on every valid match, so the extracted pool address is the second
line's `vSol`. -/
theorem c8_counterexample :
    (extract_pool_info 0
        ["Program log: Pool created: " ++ sMet, "Program log: Pool created: " ++ sSol,
          "Token A: " ++ sSol, "Token B: " ++ sOnes]).map (fun p => p.address)
      = some vSol ∧ vSol ≠ vMet := by
  constructor
  · decide
  · decide

/-- Amended claim C8: within a batch, each field takes the address of the
last line whose matching capture parses as a valid pubkey (later valid
matches overwrite earlier ones; a match whose capture fails to parse leaves
the field unchanged).  Stated for a batch ending in line `l`: whatever the
preceding lines set, if `l` matches the pool-created (resp. token A, token
B) pattern with a valid capture, the emitted event carries `l`'s address in
the corresponding field. -/
theorem c8_amended (now : Nat) (msgs : List String) (l : String) (cap : List Char) (v : Nat) :
    ((findMarkerCapture poolCreatedMarker l.data = some cap → pubkeyFromStr cap = some v →
      ∀ p : Pool, extract_pool_info now (msgs ++ [l]) = some p → p.address = v) ∧
    (findMarkerCapture poolCreatedMarker l.data = none →
      findMarkerCapture tokenAMarker l.data = some cap → pubkeyFromStr cap = some v →
      ∀ p : Pool, extract_pool_info now (msgs ++ [l]) = some p → p.token_a.mint = v) ∧
    (findMarkerCapture poolCreatedMarker l.data = none →
      findMarkerCapture tokenAMarker l.data = none →
      findMarkerCapture tokenBMarker l.data = some cap → pubkeyFromStr cap = some v →
      ∀ p : Pool, extract_pool_info now (msgs ++ [l]) = some p → p.token_b.mint = v)) := by
  have hfold : (msgs ++ [l]).foldl scanStep (none, none, none)
      = scanStep (msgs.foldl scanStep (none, none, none)) l := by
    rw [List.foldl_append, List.foldl_cons, List.foldl_nil]
  refine ⟨?_, ?_, ?_⟩
  · intro hp hv p hep
    rw [extract_pool_info, hfold, scanStep, hp] at hep
    simp only [updateField, hv] at hep
    rcases h21 : (msgs.foldl scanStep (none, none, none)).2.1 with _ | ta <;>
      rcases h22 : (msgs.foldl scanStep (none, none, none)).2.2 with _ | tb <;>
      rw [h21, h22] at hep <;> simp at hep
    rw [← hep]
  · intro hp ht hv p hep
    rw [extract_pool_info, hfold, scanStep, hp, ht] at hep
    simp only [updateField, hv] at hep
    rcases h1 : (msgs.foldl scanStep (none, none, none)).1 with _ | pa <;>
      rcases h22 : (msgs.foldl scanStep (none, none, none)).2.2 with _ | tb <;>
      rw [h1, h22] at hep <;> simp at hep
    rw [← hep]
  · intro hp ht htb hv p hep
    rw [extract_pool_info, hfold, scanStep, hp, ht, htb] at hep
    simp only [updateField, hv] at hep
    rcases h1 : (msgs.foldl scanStep (none, none, none)).1 with _ | pa <;>
      rcases h21 : (msgs.foldl scanStep (none, none, none)).2.1 with _ | ta <;>
      rw [h1, h21] at hep <;> simp at hep
    rw [← hep]

theorem c8_amended_witness :
    extract_pool_info 0
        (["Program log: Pool created: " ++ sMet, "Token A: " ++ sSol, "Token B: " ++ sOnes]
          ++ ["Program log: Pool created: " ++ sSol])
      = some { address := vSol,
               token_a := { mint := vSol, name := none, symbol := none, decimals := none },
               token_b := { mint := 0, name := none, symbol := none, decimals := none },
               discovered_at := 0, analyzed := false, score := none } ∧
    { address := vSol,
      token_a := { mint := vSol, name := none, symbol := none, decimals := none },
      token_b := { mint := 0, name := none, symbol := none, decimals := none },
      discovered_at := 0, analyzed := false, score := none : Pool }.address = vSol := by
  constructor
  · decide
  · exact (c8_amended 0
      ["Program log: Pool created: " ++ sMet, "Token A: " ++ sSol, "Token B: " ++ sOnes]
      ("Program log: Pool created: " ++ sSol) sSol.data vSol).1
      (by decide) (by decide) _ (by decide)

/-! ## Claim C6: idempotent stop -/

/-- Claim C6.  From any slot state (never-started: `none`; active or
already-stopped alike), `stop` returns success and empties the slot; a
second `stop` also returns success and observes no handle; after any
`stop` the slot is clear, so a subsequent `start_monitoring` does not fail
with `AlreadyActive` but stores the new handle.  (The 5-second join
timeout and absence of panics are timing behaviour outside this model;
structurally, `stop` always takes the handle out and returns `Ok(())`.) -/
theorem c6_stop_idempotent (s : Option SubHandle) :
    (stop_monitor s).1.success = true ∧
      (stop_monitor s).2 = none ∧
      (stop_monitor (stop_monitor s).2).1.success = true ∧
      (stop_monitor (stop_monitor s).2).1.observed = none ∧
      (stop_monitor (stop_monitor s).2).2 = none ∧
      (∀ h : SubHandle, start_monitoring (stop_monitor s).2 h = Except.ok (some h)) :=
  ⟨rfl, rfl, rfl, rfl, rfl, fun _ => rfl⟩

/-! ## Claim C10: lock discipline of the health sweep -/

/-- Claim C10 evaluated at a failing input.  The claim says every probe and
rebuild of the sweep happens while the registry lock is NOT held.  For a
registry holding one healthy record `"a"` whose probes all fail, the tick
trace is `lock, probe "a", rebuild "a", unlock`: both the probe (index 1)
and the rebuild (index 2) run while the lock is held, because the source
takes `clients.lock()` before the probe loops and the guard lives to the
end of the tick. -/
theorem c10_probe_under_lock :
    tickTrace RetryConfig.default_config (fun _ _ => false)
        [{ url := "a", status := ConnectionStatus.healthy, lastUsed := 0 }]
      = [SweepAction.lockAcquire, SweepAction.probeCall "a", SweepAction.rebuildCall "a",
          SweepAction.lockRelease] ∧
      lockHeldAt (tickTrace RetryConfig.default_config (fun _ _ => false)
        [{ url := "a", status := ConnectionStatus.healthy, lastUsed := 0 }]) 1 ∧
      lockHeldAt (tickTrace RetryConfig.default_config (fun _ _ => false)
        [{ url := "a", status := ConnectionStatus.healthy, lastUsed := 0 }]) 2 := by
  refine ⟨by decide, ?_, ?_⟩ <;> · rw [lockHeldAt]; decide

/-! ## Claim C2: acquire behaviour -/

/-- Claim C2 counterexample.  One configured endpoint `"a"`, empty
registry, and a probe that fails on its first attempt but succeeds on the
second.  Under the claim's single-attempt probe policy `acquire` must
pool-exhaust; the source probes through `is_healthy()`, which runs the
pool's full retry policy (5 retries by default), so the second attempt
succeeds and the endpoint is registered and returned. -/
theorem c2_counterexample :
    (get_client
        { min_connections := 1, max_connections := 3, rpc_urls := ["a"],
          retry_config := RetryConfig.default_config }
        [] (fun _ k => decide (0 < k)) 7).1 = some "a" ∧
      (get_client_spec
        { min_connections := 1, max_connections := 3, rpc_urls := ["a"],
          retry_config := RetryConfig.default_config }
        [] (fun _ k => decide (0 < k)) 7).1 = none := by
  constructor
  · decide
  · decide

/-- The healthy scan of `get_client` equals find-first-and-set-at-index. -/
theorem mfh_eq_find (now : Nat) (reg : List ConnRecord) :
    markFirstHealthy now reg
      = match reg.find? (fun r => r.status == ConnectionStatus.healthy) with
        | some r =>
          some (r.url, reg.set (reg.findIdx (fun q => q.status == ConnectionStatus.healthy))
            { r with status := ConnectionStatus.inUse, lastUsed := now })
        | none => none := by
  induction reg with
  | nil => rfl
  | cons r rest ih =>
    rw [markFirstHealthy, List.find?_cons, List.findIdx_cons]
    by_cases hr : r.status = ConnectionStatus.healthy
    · have hb : (r.status == ConnectionStatus.healthy) = true := by rw [beq_iff_eq]; exact hr
      simp only [hb, cond_true, if_pos hr]
      rfl
    · have hb : (r.status == ConnectionStatus.healthy) = false := by
        rw [beq_eq_false_iff_ne]; exact hr
      simp only [hb, cond_false, if_neg hr]
      rw [ih]
      cases hf : rest.find? (fun r => r.status == ConnectionStatus.healthy) with
      | none => simp
      | some q => simp [List.set_cons_succ]

/-- The new-endpoint loop of `get_client` equals find-first over the
configured urls with the combined unused-and-probe-healthy predicate. -/
theorem tnu_eq_find (cfg : PoolConfig) (reg : List ConnRecord) (health : String → Nat → Bool)
    (now : Nat) (urls : List String) :
    tryNewUrls cfg reg health now urls
      = match urls.find? (fun u => !(reg.any (fun r => r.url = u))
          && is_healthy cfg.retry_config (health u)) with
        | some u =>
          (some u, reg ++ [{ url := u, status := ConnectionStatus.inUse, lastUsed := now }])
        | none => (none, reg) := by
  induction urls with
  | nil => rfl
  | cons url rest ih =>
    rw [tryNewUrls, List.find?_cons]
    by_cases hused : reg.any (fun r => r.url = url)
    · simp only [hused, if_true, Bool.not_true, Bool.false_and]
      rw [ih]
    · simp only [hused, Bool.false_eq_true, if_false, Bool.not_false, Bool.true_and]
      by_cases hh : is_healthy cfg.retry_config (health url)
      · simp only [hh, if_true]
      · simp only [hh, Bool.false_eq_true, if_false]
        rw [ih]

/-- Amended claim C2: `acquire` scans for the first healthy record and, if
found, marks it in use with a fresh timestamp and returns it; otherwise,
when the registry is below both `max_connections` and the configured
endpoint count, it walks ALL not-yet-instantiated endpoints in
configuration order -- probing each with the pool's full retry policy --
and registers and returns the first that probes live; in every other case
it reports pool exhaustion. -/
theorem c2_amended (cfg : PoolConfig) (reg : List ConnRecord) (health : String → Nat → Bool)
    (now : Nat) : get_client cfg reg health now = get_client_amended cfg reg health now := by
  rw [get_client, get_client_amended, mfh_eq_find]
  cases reg.find? (fun r => r.status == ConnectionStatus.healthy) with
  | some r => simp
  | none =>
    by_cases hsz : reg.length < cfg.max_connections ∧ reg.length < cfg.rpc_urls.length
    · simp only [hsz, if_true]
      rw [tnu_eq_find]
    · simp only [hsz, if_false]

/-! ## Claim C7: health-sweep status transitions -/

/-- One sweep tick acts record-wise: it is the map of `statusStep` over the
registry (urls and timestamps untouched). -/
theorem sweep_tick_eq_map (rc : RetryConfig) (p1 p2 : String → Nat → Bool)
    (reg : List ConnRecord) :
    sweep_tick rc p1 p2 reg = reg.map (fun r =>
      { r with
        status := statusStep r.status (is_healthy rc (p1 r.url)) (is_healthy rc (p2 r.url)) })
      := by
  rw [sweep_tick, sweepPass1, sweepPass2, List.map_map]
  apply List.map_congr_left
  intro r _
  by_cases hin : r.status = ConnectionStatus.inUse
  · simp only [Function.comp_apply, hin, if_true, statusStep, reduceIte]
    by_cases hrec : r.status = ConnectionStatus.reconnecting
    · rw [hin] at hrec; cases hrec
    · rw [← hin]
      simp [hrec]
  · by_cases ha : is_healthy rc (p1 r.url)
    · simp [Function.comp_apply, hin, ha, statusStep]
    · by_cases hb : is_healthy rc (p2 r.url)
      · simp [Function.comp_apply, hin, ha, hb, statusStep]
      · simp [Function.comp_apply, hin, ha, hb, statusStep]

/-- Claim C7.  Over any single sweep tick and any run of consecutive ticks:
no record is removed (the url sequence is unchanged), no record is ever
assigned `Failed`, a healthy record whose probe and rebuild both fail moves
to `Reconnecting`, a reconnecting record whose probe or rebuild succeeds
moves back to `Healthy`, and a reconnecting record stays exactly as it is
through arbitrarily many ticks in which every probe and rebuild for its
endpoint fails. -/
theorem c7_sweep_transitions (rc : RetryConfig) (p1 p2 : String → Nat → Bool)
    (reg : List ConnRecord) (u : String)
    (ticks : List ((String → Nat → Bool) × (String → Nat → Bool))) :
    ((sweep_tick rc p1 p2 reg).map (fun r => r.url) = reg.map (fun r => r.url)) ∧
    (∀ r ∈ sweep_tick rc p1 p2 reg, r.status ≠ ConnectionStatus.failed) ∧
    (∀ i : Nat, ∀ r : ConnRecord, reg.get? i = some r →
      r.status = ConnectionStatus.healthy →
      is_healthy rc (p1 r.url) = false → is_healthy rc (p2 r.url) = false →
      (sweep_tick rc p1 p2 reg).get? i
        = some { r with status := ConnectionStatus.reconnecting }) ∧
    (∀ i : Nat, ∀ r : ConnRecord, reg.get? i = some r →
      r.status = ConnectionStatus.reconnecting →
      (is_healthy rc (p1 r.url) = true ∨ is_healthy rc (p2 r.url) = true) →
      (sweep_tick rc p1 p2 reg).get? i
        = some { r with status := ConnectionStatus.healthy }) ∧
    (∀ i : Nat, ∀ r : ConnRecord, reg.get? i = some r →
      r.status = ConnectionStatus.reconnecting →
      is_healthy rc (p1 r.url) = false → is_healthy rc (p2 r.url) = false →
      (sweep_tick rc p1 p2 reg).get? i = some r) ∧
    ((∀ t ∈ ticks, is_healthy rc (t.1 u) = false ∧ is_healthy rc (t.2 u) = false) →
      ∀ i : Nat, ∀ r : ConnRecord, reg.get? i = some r → r.url = u →
      r.status = ConnectionStatus.reconnecting →
      (sweepRun rc ticks reg).get? i = some r) := by
  refine ⟨?_, ?_, ?_, ?_, ?_, ?_⟩
  · rw [sweep_tick_eq_map, List.map_map]
    rfl
  · intro r hr
    rw [sweep_tick_eq_map] at hr
    rcases List.mem_map.mp hr with ⟨q, _, hq⟩
    rw [← hq]
    simp only [statusStep]
    by_cases hin : q.status = ConnectionStatus.inUse
    · simp [hin]
    · by_cases ha : is_healthy rc (p1 q.url) <;> by_cases hb : is_healthy rc (p2 q.url) <;>
        simp [hin, ha, hb]
  · intro i r hget hst ha hb
    rw [sweep_tick_eq_map, List.get?_map, hget]
    simp [statusStep, hst, ha, hb]
  · intro i r hget hst hab
    rw [sweep_tick_eq_map, List.get?_map, hget]
    rcases hab with ha | hb
    · simp [statusStep, hst, ha]
    · by_cases ha : is_healthy rc (p1 r.url) <;> simp [statusStep, hst, ha, hb]
  · intro i r hget hst ha hb
    rw [sweep_tick_eq_map, List.get?_map, hget]
    have : statusStep r.status (is_healthy rc (p1 r.url)) (is_healthy rc (p2 r.url))
        = r.status := by
      simp [statusStep, hst, ha, hb]
    simp [this]
  · induction ticks generalizing reg with
    | nil => intro _ i r hget _ _; exact hget
    | cons t ts ih =>
      intro hall i r hget hurl hst
      have ht := hall t (List.mem_cons_self t ts)
      have hstep : (sweep_tick rc t.1 t.2 reg).get? i = some r := by
        rw [sweep_tick_eq_map, List.get?_map, hget]
        have : statusStep r.status (is_healthy rc (t.1 r.url)) (is_healthy rc (t.2 r.url))
            = r.status := by
          rw [hurl]
          simp [statusStep, hst, ht.1, ht.2]
        simp [this]
      have hrun : sweepRun rc (t :: ts) reg = sweepRun rc ts (sweep_tick rc t.1 t.2 reg) := rfl
      rw [hrun]
      exact ih (sweep_tick rc t.1 t.2 reg)
        (fun q hq => hall q (List.mem_cons_of_mem t hq)) i r hstep hurl hst

theorem c7_witness :
    (sweep_tick RetryConfig.default_config (fun _ _ => false) (fun _ _ => false)
        [{ url := "a", status := ConnectionStatus.healthy, lastUsed := 0 }]).get? 0
      = some { url := "a", status := ConnectionStatus.reconnecting, lastUsed := 0 } ∧
    (sweep_tick RetryConfig.default_config (fun _ _ => true) (fun _ _ => false)
        [{ url := "a", status := ConnectionStatus.reconnecting, lastUsed := 0 }]).get? 0
      = some { url := "a", status := ConnectionStatus.healthy, lastUsed := 0 } ∧
    (sweepRun RetryConfig.default_config
        [(fun _ _ => false, fun _ _ => false), (fun _ _ => false, fun _ _ => false)]
        [{ url := "a", status := ConnectionStatus.reconnecting, lastUsed := 0 }]).get? 0
      = some { url := "a", status := ConnectionStatus.reconnecting, lastUsed := 0 } := by
  refine ⟨?_, ?_, ?_⟩
  · exact (c7_sweep_transitions RetryConfig.default_config (fun _ _ => false) (fun _ _ => false)
      [{ url := "a", status := ConnectionStatus.healthy, lastUsed := 0 }] "a" []).2.2.1 0
      { url := "a", status := ConnectionStatus.healthy, lastUsed := 0 }
      rfl rfl (by decide) (by decide)
  · exact (c7_sweep_transitions RetryConfig.default_config (fun _ _ => true) (fun _ _ => false)
      [{ url := "a", status := ConnectionStatus.reconnecting, lastUsed := 0 }] "a" []).2.2.2.1 0
      { url := "a", status := ConnectionStatus.reconnecting, lastUsed := 0 }
      rfl rfl (Or.inl (by decide))
  · refine (c7_sweep_transitions RetryConfig.default_config (fun _ _ => false) (fun _ _ => false)
      [{ url := "a", status := ConnectionStatus.reconnecting, lastUsed := 0 }] "a"
      [(fun _ _ => false, fun _ _ => false), (fun _ _ => false, fun _ _ => false)]).2.2.2.2.2
      ?_ 0
      { url := "a", status := ConnectionStatus.reconnecting, lastUsed := 0 }
      rfl rfl rfl
    intro t ht
    rcases List.mem_cons.mp ht with h | h
    · subst h; exact ⟨by decide, by decide⟩
    · rcases List.mem_cons.mp h with h2 | h2
      · subst h2; exact ⟨by decide, by decide⟩
      · cases h2

/-! ## Claim C5: pool usage invariant -/

theorem set_self_of_get? {α : Type} (l : List α) (n : Nat) (a : α) (h : l.get? n = some a) :
    l.set n a = l := by
  induction l generalizing n with
  | nil => cases h
  | cons x xs ih =>
    cases n with
    | zero =>
      have : x = a := Option.some.inj h
      rw [← this]
      rfl
    | succ m =>
      have : xs.set m a = xs := ih m h
      show x :: xs.set m a = x :: xs
      rw [this]

theorem nodup_get?_ne {α : Type} (l : List α) (hl : l.Nodup) (i j : Nat) (a b : α)
    (hij : i ≠ j) (ha : l.get? i = some a) (hb : l.get? j = some b) : a ≠ b := by
  induction l generalizing i j with
  | nil => cases ha
  | cons x xs ih =>
    rcases List.nodup_cons.mp hl with ⟨hx, hxs⟩
    cases i with
    | zero =>
      cases j with
      | zero => exact absurd rfl hij
      | succ m =>
        have hax : x = a := Option.some.inj ha
        intro hab
        exact hx (by rw [hax, hab]; exact List.get?_mem hb)
    | succ n =>
      cases j with
      | zero =>
        have hbx : x = b := Option.some.inj hb
        intro hab
        exact hx (by rw [hbx, ← hab]; exact List.get?_mem ha)
      | succ m => exact ih hxs n m (by omega) ha hb

/-- Decomposition of a successful healthy-scan: the first healthy record,
at its index, switched to in-use. -/
theorem mfh_some (now : Nat) :
    ∀ (reg : List ConnRecord) (u : String) (reg2 : List ConnRecord),
      markFirstHealthy now reg = some (u, reg2) →
      ∃ i r, reg.get? i = some r ∧ r.status = ConnectionStatus.healthy ∧ r.url = u ∧
        reg2 = reg.set i { r with status := ConnectionStatus.inUse, lastUsed := now } := by
  intro reg
  induction reg with
  | nil => intro u reg2 h; cases h
  | cons r rest ih =>
    intro u reg2 h
    rw [markFirstHealthy] at h
    by_cases hr : r.status = ConnectionStatus.healthy
    · rw [if_pos hr] at h
      injection h with hpair
      injection hpair with hu hreg
      subst hu
      subst hreg
      exact ⟨0, r, rfl, hr, rfl, rfl⟩
    · rw [if_neg hr] at h
      rcases Option.map_eq_some'.mp h with ⟨p, hp, hpe⟩
      injection hpe with hu hreg
      subst hu
      subst hreg
      rcases ih p.1 p.2 hp with ⟨i, q, hq, hqs, hqu, hqe⟩
      refine ⟨i + 1, q, hq, hqs, hqu, ?_⟩
      show r :: p.2 = (r :: rest).set (i + 1) _
      rw [show ∀ v : ConnRecord, (r :: rest).set (i + 1) v = r :: rest.set i v
        from fun _ => rfl]
      rw [← hqe]

/-- Case analysis of the new-endpoint loop: either nothing was registered
and the registry is untouched, or a url absent from the registry was
appended as in-use. -/
theorem tnu_cases (cfg : PoolConfig) (reg : List ConnRecord) (health : String → Nat → Bool)
    (now : Nat) :
    ∀ (urls : List String) (o : Option String) (reg2 : List ConnRecord),
      tryNewUrls cfg reg health now urls = (o, reg2) →
      (o = none ∧ reg2 = reg) ∨
      (∃ u, o = some u ∧ reg.any (fun r => r.url = u) = false ∧
        reg2 = reg ++ [{ url := u, status := ConnectionStatus.inUse, lastUsed := now }]) := by
  intro urls
  induction urls with
  | nil =>
    intro o reg2 h
    left
    have h2 := h.symm
    exact ⟨congrArg Prod.fst h2, congrArg Prod.snd h2⟩
  | cons url rest ih =>
    intro o reg2 h
    rw [tryNewUrls] at h
    by_cases hused : reg.any (fun r => r.url = url)
    · rw [if_pos hused] at h
      exact ih o reg2 h
    · rw [if_neg hused] at h
      by_cases hh : is_healthy cfg.retry_config (health url)
      · rw [if_pos hh] at h
        right
        have h2 := h.symm
        refine ⟨url, congrArg Prod.fst h2, ?_, congrArg Prod.snd h2⟩
        exact Bool.eq_false_iff.mpr hused
      · rw [if_neg hh] at h
        exact ih o reg2 h

/-- Full outcome analysis of `get_client`. -/
theorem get_client_cases (cfg : PoolConfig) (reg : List ConnRecord)
    (health : String → Nat → Bool) (now : Nat) :
    (∃ i r, reg.get? i = some r ∧ r.status = ConnectionStatus.healthy ∧
      get_client cfg reg health now
        = (some r.url, reg.set i { r with status := ConnectionStatus.inUse, lastUsed := now })) ∨
    (∃ u, reg.any (fun r => r.url = u) = false ∧
      get_client cfg reg health now
        = (some u, reg ++ [{ url := u, status := ConnectionStatus.inUse, lastUsed := now }])) ∨
    get_client cfg reg health now = (none, reg) := by
  rw [get_client]
  cases hm : markFirstHealthy now reg with
  | some p =>
    obtain ⟨pu, preg⟩ := p
    rcases mfh_some now reg pu preg hm with ⟨i, r, hget, hst, hurl, hreg⟩
    left
    refine ⟨i, r, hget, hst, ?_⟩
    show (some pu, preg) = _
    rw [hreg, hurl]
  | none =>
    by_cases hsz : reg.length < cfg.max_connections ∧ reg.length < cfg.rpc_urls.length
    · rw [if_pos hsz]
      rcases tnu_cases cfg reg health now cfg.rpc_urls
          (tryNewUrls cfg reg health now cfg.rpc_urls).1
          (tryNewUrls cfg reg health now cfg.rpc_urls).2 rfl with ⟨ho, hreg⟩ | ⟨u, ho, hany, hreg⟩
      · right; right
        rw [show tryNewUrls cfg reg health now cfg.rpc_urls
          = ((tryNewUrls cfg reg health now cfg.rpc_urls).1,
             (tryNewUrls cfg reg health now cfg.rpc_urls).2) from rfl, ho, hreg]
      · right; left
        refine ⟨u, hany, ?_⟩
        rw [show tryNewUrls cfg reg health now cfg.rpc_urls
          = ((tryNewUrls cfg reg health now cfg.rpc_urls).1,
             (tryNewUrls cfg reg health now cfg.rpc_urls).2) from rfl, ho, hreg]
    · rw [if_neg hsz]
      right; right
      rfl

theorem get?_set_self {α : Type} (l : List α) (n : Nat) (a : α) (h : n < l.length) :
    (l.set n a).get? n = some a := by
  rw [List.get?_eq_getElem?]
  simp [List.getElem?_set_self, h]

theorem get?_set_other {α : Type} (l : List α) (n m : Nat) (a : α) (h : n ≠ m) :
    (l.set n a).get? m = l.get? m := by
  rw [List.get?_eq_getElem?, List.get?_eq_getElem?, List.getElem?_set_ne h]

theorem get?_append_one {α : Type} (l : List α) (a : α) (j : Nat) (x : α)
    (h : (l ++ [a]).get? j = some x) :
    l.get? j = some x ∨ (j = l.length ∧ x = a) := by
  rcases Nat.lt_trichotomy j l.length with hlt | heq | hgt
  · left
    rw [List.get?_append hlt] at h
    exact h
  · right
    subst heq
    rw [List.get?_concat_length] at h
    exact ⟨rfl, (Option.some.inj h).symm⟩
  · have hlen : (l ++ [a]).length ≤ j := by
      rw [List.length_append, List.length_singleton]
      omega
    rw [List.get?_eq_none.mpr hlen] at h
    cases h

theorem get?_some_lt {α : Type} (l : List α) (n : Nat) (a : α) (h : l.get? n = some a) :
    n < l.length := by
  by_contra hn
  rw [List.get?_eq_none.mpr (by omega)] at h
  cases h

/-- One pool operation preserves the usage invariant. -/
theorem poolStep_inv (cfg : PoolConfig) (s : PoolState) (op : PoolOp) (h : PoolInv s) :
    PoolInv (poolStep cfg s op) := by
  obtain ⟨hnd, hcnt, hiff, hsub⟩ := h
  cases op with
  | acquire health now =>
    rcases get_client_cases cfg s.reg health now with
      ⟨i, r, hget, hst, hgc⟩ | ⟨u, hany, hgc⟩ | hgc
    · -- a healthy record was marked InUse
      have hps : poolStep cfg s (PoolOp.acquire health now)
          = { reg := s.reg.set i { r with status := ConnectionStatus.inUse, lastUsed := now },
              holders := r.url :: s.holders } := by
        show ({ reg := (get_client cfg s.reg health now).2,
                holders := match (get_client cfg s.reg health now).1 with
                  | some u => u :: s.holders
                  | none => s.holders } : PoolState) = _
        rw [hgc]
      rw [hps]
      have hnotin : r.url ∉ s.holders := by
        intro hm
        have := (hiff i r hget).mpr hm
        rw [hst] at this
        cases this
      have hmapi : (s.reg.map (fun q => q.url)).get? i = some r.url := by
        rw [List.get?_map, hget]
        rfl
      have hurls : (s.reg.set i
            { r with status := ConnectionStatus.inUse, lastUsed := now }).map (fun q => q.url)
          = s.reg.map (fun q => q.url) := by
        rw [List.map_set]
        exact set_self_of_get? _ _ _ hmapi
      refine ⟨?_, ?_, ?_, ?_⟩
      · rw [hurls]; exact hnd
      · intro v
        show (r.url :: s.holders).count v ≤ 1
        by_cases hv : v = r.url
        · rw [hv, List.count_cons_self]
          have h0 : s.holders.count r.url = 0 := List.count_eq_zero.mpr hnotin
          omega
        · rw [List.count_cons_of_ne hv]
          exact hcnt v
      · intro j x hx
        by_cases hj : j = i
        · subst hj
          rw [get?_set_self _ _ _ (get?_some_lt _ _ _ hget)] at hx
          have hxr := Option.some.inj hx
          rw [← hxr]
          constructor
          · intro _; exact List.mem_cons_self _ _
          · intro _; rfl
        · rw [get?_set_other _ _ _ _ (fun hc => hj hc.symm)] at hx
          have hxu : x.url ≠ r.url := by
            have hmapj : (s.reg.map (fun q => q.url)).get? j = some x.url := by
              rw [List.get?_map, hx]; rfl
            exact nodup_get?_ne _ hnd j i x.url r.url hj hmapj hmapi
          rw [hiff j x hx]
          constructor
          · intro hm; exact List.mem_cons_of_mem _ hm
          · intro hm
            rcases List.mem_cons.mp hm with hc | hc
            · exact absurd hc hxu
            · exact hc
      · intro v hv
        rw [hurls]
        rcases List.mem_cons.mp hv with hc | hc
        · rw [hc]; exact List.get?_mem hmapi
        · exact hsub v hc
    · -- a fresh endpoint was probed live and appended InUse
      have hps : poolStep cfg s (PoolOp.acquire health now)
          = { reg := s.reg ++ [{ url := u, status := ConnectionStatus.inUse, lastUsed := now }],
              holders := u :: s.holders } := by
        show ({ reg := (get_client cfg s.reg health now).2,
                holders := match (get_client cfg s.reg health now).1 with
                  | some w => w :: s.holders
                  | none => s.holders } : PoolState) = _
        rw [hgc]
      rw [hps]
      have hnotmapped : u ∉ s.reg.map (fun q => q.url) := by
        intro hm
        rcases List.mem_map.mp hm with ⟨x, hxm, hxu⟩
        have : s.reg.any (fun r => r.url = u) = true :=
          List.any_eq_true.mpr ⟨x, hxm, decide_eq_true hxu⟩
        rw [hany] at this
        cases this
      have hnotheld : u ∉ s.holders := fun hm => hnotmapped (hsub u hm)
      have hmape :
          (s.reg ++ [({ url := u, status := ConnectionStatus.inUse, lastUsed := now } : ConnRecord)]).map (fun q => q.url)
          = s.reg.map (fun q => q.url) ++ [u] := by
        rw [List.map_append]
        rfl
      refine ⟨?_, ?_, ?_, ?_⟩
      · rw [hmape, List.nodup_append]
        refine ⟨hnd, List.nodup_singleton u, ?_⟩
        intro x hx hxu
        rw [List.mem_singleton.mp hxu] at hx
        exact hnotmapped hx
      · intro v
        show (u :: s.holders).count v ≤ 1
        by_cases hv : v = u
        · rw [hv, List.count_cons_self]
          have h0 : s.holders.count u = 0 := List.count_eq_zero.mpr hnotheld
          omega
        · rw [List.count_cons_of_ne hv]
          exact hcnt v
      · intro j x hx
        rcases get?_append_one _ _ _ _ hx with hreg | ⟨hj, hxa⟩
        · have hxu : x.url ≠ u := by
            intro hc
            apply hnotmapped
            rw [← hc]
            exact List.mem_map.mpr ⟨x, List.get?_mem hreg, rfl⟩
          rw [hiff j x hreg]
          constructor
          · intro hm; exact List.mem_cons_of_mem _ hm
          · intro hm
            rcases List.mem_cons.mp hm with hc | hc
            · exact absurd hc hxu
            · exact hc
        · rw [hxa]
          constructor
          · intro _; exact List.mem_cons_self _ _
          · intro _; rfl
      · intro v hv
        rw [hmape]
        rcases List.mem_cons.mp hv with hc | hc
        · rw [hc]
          exact List.mem_append_right _ (List.mem_singleton.mpr rfl)
        · exact List.mem_append_left _ (hsub v hc)
    · -- pool exhausted: state unchanged
      have hps : poolStep cfg s (PoolOp.acquire health now) = s := by
        show ({ reg := (get_client cfg s.reg health now).2,
                holders := match (get_client cfg s.reg health now).1 with
                  | some w => w :: s.holders
                  | none => s.holders } : PoolState) = _
        rw [hgc]
      rw [hps]
      exact ⟨hnd, hcnt, hiff, hsub⟩
  | release u =>
    by_cases hu : u ∈ s.holders
    · have hps : poolStep cfg s (PoolOp.release u)
          = { reg := release_client s.reg u, holders := s.holders.erase u } := by
        show (if u ∈ s.holders then _ else s) = _
        rw [if_pos hu]
      rw [hps]
      have hurlf : ∀ r : ConnRecord,
          ((if r.url = u then { r with status := ConnectionStatus.healthy } else r) :
            ConnRecord).url = r.url := by
        intro r
        by_cases hr : r.url = u <;> simp [hr]
      have hurls : (release_client s.reg u).map (fun q => q.url)
          = s.reg.map (fun q => q.url) := by
        rw [release_client, List.map_map]
        apply List.map_congr_left
        intro r _
        exact hurlf r
      have hcu1 : s.holders.count u = 1 := by
        have h1 : 0 < s.holders.count u := List.count_pos_iff_mem.mpr hu
        have h2 := hcnt u
        omega
      have hnotin2 : u ∉ s.holders.erase u := by
        rw [← List.count_eq_zero, List.count_erase_self, hcu1]
      refine ⟨?_, ?_, ?_, ?_⟩
      · rw [hurls]; exact hnd
      · intro v
        by_cases hv : v = u
        · subst hv
          rw [List.count_erase_self]
          have := hcnt v
          omega
        · rw [List.count_erase_of_ne hv]
          exact hcnt v
      · intro j x hx
        have hx2 : (release_client s.reg u).get? j = some x := hx
        rw [release_client, List.get?_map] at hx2
        cases hy : s.reg.get? j with
        | none => rw [hy] at hx2; cases hx2
        | some y =>
          rw [hy, Option.map_some'] at hx2
          have hxy : (if y.url = u then ({ y with status := ConnectionStatus.healthy } : ConnRecord) else y) = x := Option.some.inj hx2
          show x.status = ConnectionStatus.inUse ↔ x.url ∈ s.holders.erase u
          rw [← hxy]
          by_cases hyu : y.url = u
          · rw [if_pos hyu]
            show ConnectionStatus.healthy = ConnectionStatus.inUse ↔ y.url ∈ s.holders.erase u
            rw [hyu]
            constructor
            · intro hc; cases hc
            · intro hm; exact absurd hm hnotin2
          · rw [if_neg hyu]
            rw [hiff j y hy]
            exact (List.mem_erase_of_ne hyu).symm
      · intro v hv
        rw [hurls]
        exact hsub v (List.mem_of_mem_erase hv)
    · have hps : poolStep cfg s (PoolOp.release u) = s := by
        show (if u ∈ s.holders then _ else s) = _
        rw [if_neg hu]
      rw [hps]
      exact ⟨hnd, hcnt, hiff, hsub⟩
  | sweep p1 p2 =>
    refine ⟨?_, hcnt, ?_, ?_⟩
    · show ((sweep_tick cfg.retry_config p1 p2 s.reg).map (fun q => q.url)).Nodup
      rw [sweep_tick_eq_map, List.map_map]
      exact hnd
    · intro j x hx
      have hx2 : (sweep_tick cfg.retry_config p1 p2 s.reg).get? j = some x := hx
      rw [sweep_tick_eq_map, List.get?_map] at hx2
      cases hy : s.reg.get? j with
      | none => rw [hy] at hx2; cases hx2
      | some y =>
        rw [hy, Option.map_some'] at hx2
        have hxy : ({ y with status := statusStep y.status (is_healthy cfg.retry_config (p1 y.url)) (is_healthy cfg.retry_config (p2 y.url)) } : ConnRecord) = x := Option.some.inj hx2
        show x.status = ConnectionStatus.inUse ↔ x.url ∈ s.holders
        rw [← hxy]
        show statusStep y.status (is_healthy cfg.retry_config (p1 y.url)) (is_healthy cfg.retry_config (p2 y.url)) = ConnectionStatus.inUse ↔ y.url ∈ s.holders
        have hstep : ∀ a b : Bool, (statusStep y.status a b = ConnectionStatus.inUse ↔ y.status = ConnectionStatus.inUse) := by
          intro a b
          rw [statusStep]
          by_cases hin : y.status = ConnectionStatus.inUse
          · rw [if_pos hin]
          · rw [if_neg hin]
            cases a
            · cases b
              · simp [hin]
              · simp [hin]
            · simp [hin]
        rw [hstep]
        exact hiff j y hy
    · intro v hv
      show v ∈ (sweep_tick cfg.retry_config p1 p2 s.reg).map (fun q => q.url)
      rw [sweep_tick_eq_map, List.map_map]
      exact hsub v hv

/-- `initialize` only ever inserts healthy records with fresh urls. -/
theorem initStep_preserve (cfg : PoolConfig) (now : Nat) (acc : List ConnRecord) (i : Nat)
    (h : (∀ r ∈ acc, r.status = ConnectionStatus.healthy) ∧
      (acc.map (fun r => r.url)).Nodup) :
    (∀ r ∈ initStep cfg now acc i, r.status = ConnectionStatus.healthy) ∧
      ((initStep cfg now acc i).map (fun r => r.url)).Nodup := by
  rw [initStep]
  by_cases hguard : cfg.rpc_urls.length ≤ acc.length
  · rw [if_pos hguard]; exact h
  · rw [if_neg hguard]
    cases hget : cfg.rpc_urls.get? (i % cfg.rpc_urls.length) with
    | none => exact h
    | some url =>
      by_cases hany : acc.any (fun r => r.url = url)
      · simp only [hany, if_true]
        exact h
      · rw [Bool.not_eq_true] at hany
        simp only [hany, Bool.false_eq_true, if_false]
        have hnotmapped : url ∉ acc.map (fun r => r.url) := by
          intro hm
          rcases List.mem_map.mp hm with ⟨x, hxm, hxu⟩
          have hc : acc.any (fun r => r.url = url) = true :=
            List.any_eq_true.mpr ⟨x, hxm, decide_eq_true hxu⟩
          rw [hany] at hc
          cases hc
        constructor
        · intro r hr
          rcases List.mem_append.mp hr with hm | hm
          · exact h.1 r hm
          · rw [List.mem_singleton.mp hm]
        · rw [List.map_append, List.nodup_append]
          refine ⟨h.2, List.nodup_singleton url, ?_⟩
          intro x hx hxu
          rw [show (List.map (fun r => r.url)
            [({ url := url, status := ConnectionStatus.healthy, lastUsed := now } : ConnRecord)])
            = [url] from rfl] at hxu
          rw [List.mem_singleton.mp hxu] at hx
          exact hnotmapped hx

theorem init_pool_healthy_nodup (cfg : PoolConfig) (now : Nat) :
    (∀ r ∈ init_pool cfg now, r.status = ConnectionStatus.healthy) ∧
      ((init_pool cfg now).map (fun r => r.url)).Nodup := by
  rw [init_pool]
  have hgen : ∀ (l : List Nat) (acc : List ConnRecord),
      (∀ r ∈ acc, r.status = ConnectionStatus.healthy) ∧ (acc.map (fun r => r.url)).Nodup →
      (∀ r ∈ l.foldl (initStep cfg now) acc, r.status = ConnectionStatus.healthy) ∧
        ((l.foldl (initStep cfg now) acc).map (fun r => r.url)).Nodup := by
    intro l
    induction l with
    | nil => intro acc h; exact h
    | cons i rest ih =>
      intro acc h
      rw [List.foldl_cons]
      exact ih (initStep cfg now acc i) (initStep_preserve cfg now acc i h)
  exact hgen (List.range cfg.min_connections) [] ⟨fun r hr => absurd hr (List.not_mem_nil r), List.nodup_nil⟩

theorem initState_inv (cfg : PoolConfig) (now : Nat) : PoolInv (initState cfg now) := by
  obtain ⟨hhealthy, hnd⟩ := init_pool_healthy_nodup cfg now
  refine ⟨hnd, ?_, ?_, ?_⟩
  · intro u
    show ([] : List String).count u ≤ 1
    rw [List.count_nil]
    omega
  · intro i r hget
    constructor
    · intro hin
      have := hhealthy r (List.get?_mem hget)
      rw [this] at hin
      cases hin
    · intro hm
      exact absurd hm (List.not_mem_nil _)
  · intro u hu
    exact absurd hu (List.not_mem_nil u)

/-- `get_client` never hands out a record already in the registry unless it
was Healthy there (given distinct registry keys). -/
theorem get_client_only_healthy (cfg : PoolConfig) (reg : List ConnRecord)
    (health : String → Nat → Bool) (now : Nat) (u : String)
    (hnd : (reg.map (fun r => r.url)).Nodup)
    (hgc : (get_client cfg reg health now).1 = some u) :
    ∀ (j : Nat) (x : ConnRecord), reg.get? j = some x → x.url = u →
      x.status = ConnectionStatus.healthy := by
  rcases get_client_cases cfg reg health now with
    ⟨i, r, hget, hst, hgc2⟩ | ⟨w, hany, hgc2⟩ | hgc2
  · have hu : u = r.url := by
      rw [hgc2] at hgc
      exact (Option.some.inj hgc).symm
    intro j x hj hxu
    by_cases hji : j = i
    · subst hji
      rw [hj] at hget
      rw [Option.some.inj hget]
      exact hst
    · have hmapj : (reg.map (fun q => q.url)).get? j = some x.url := by
        rw [List.get?_map, hj]; rfl
      have hmapi : (reg.map (fun q => q.url)).get? i = some r.url := by
        rw [List.get?_map, hget]; rfl
      have := nodup_get?_ne _ hnd j i x.url r.url hji hmapj hmapi
      rw [hxu, hu] at this
      exact absurd rfl this
  · have hu : u = w := by
      rw [hgc2] at hgc
      exact (Option.some.inj hgc).symm
    intro j x hj hxu
    have : reg.any (fun r => r.url = w) = true :=
      List.any_eq_true.mpr ⟨x, List.get?_mem hj, decide_eq_true (by rw [← hu, hxu])⟩
    rw [hany] at this
    cases this
  · rw [hgc2] at hgc
    cases hgc

/-- Claim C5.  After any sequence of pool operations from the initialized
pool (releases modelling a holder returning its handle): registry keys stay
distinct, each endpoint is held by at most one caller (so acquire never
yields two simultaneously-held handles to one endpoint), a record is InUse
exactly when some caller holds it, held urls are registry keys, and a
further acquire hands out a url already present in the registry only if
that record was Healthy. -/
theorem c5_pool_invariant (cfg : PoolConfig) (now0 : Nat) (ops : List PoolOp) :
    PoolInv (runPool cfg now0 ops) ∧
      (∀ (health : String → Nat → Bool) (now : Nat) (u : String),
        (get_client cfg (runPool cfg now0 ops).reg health now).1 = some u →
        ∀ (j : Nat) (x : ConnRecord), (runPool cfg now0 ops).reg.get? j = some x →
          x.url = u → x.status = ConnectionStatus.healthy) := by
  have hrun : PoolInv (runPool cfg now0 ops) := by
    rw [runPool]
    have hgen : ∀ (l : List PoolOp) (s : PoolState), PoolInv s →
        PoolInv (l.foldl (poolStep cfg) s) := by
      intro l
      induction l with
      | nil => intro s h; exact h
      | cons op rest ih =>
        intro s h
        rw [List.foldl_cons]
        exact ih (poolStep cfg s op) (poolStep_inv cfg s op h)
    exact hgen ops (initState cfg now0) (initState_inv cfg now0)
  refine ⟨hrun, ?_⟩
  intro health now u hgc j x hj hxu
  exact get_client_only_healthy cfg (runPool cfg now0 ops).reg health now u hrun.1 hgc j x hj hxu

theorem c5_witness :
    PoolInv (runPool
      { min_connections := 1, max_connections := 3, rpc_urls := ["a"],
        retry_config := RetryConfig.default_config } 0 []) ∧
    ({ url := "a", status := ConnectionStatus.healthy, lastUsed := 0 } : ConnRecord).status
      = ConnectionStatus.healthy := by
  refine ⟨(c5_pool_invariant _ 0 []).1, ?_⟩
  exact (c5_pool_invariant
    { min_connections := 1, max_connections := 3, rpc_urls := ["a"],
      retry_config := RetryConfig.default_config } 0 []).2
    (fun _ _ => true) 1 "a" (by decide) 0
    { url := "a", status := ConnectionStatus.healthy, lastUsed := 0 } (by decide) rfl
